import Mathlib

/-!
Verification of the wireframe 3D engine (`engine3D.py`).

The engine projects 3D wireframe shapes onto a fixed window plane (the XY
plane at a given world Z) as seen by a movable, non-rotating observer, then
converts the projected points to canvas pixels and emits line segments.

We embed the program shallowly: coordinates become rationals (the source
works with Python floats; the claims are about the exact arithmetic the
code performs), Python lists become `List`, and code that can raise a
Python exception (`ZeroDivisionError` from `1/a0`, `IndexError` from list
subscription) returns `Option`, with `none` marking the raised exception.
-/

/-- An (x, y, z) coordinate triple, as used for vertices, the observer and
the window position (`obs`, `window_pos` are 3-element Python lists). -/
structure Vec3 where
  x : ℚ
  y : ℚ
  z : ℚ
  deriving DecidableEq, Repr

/-- A projected 2D point (the 2-element list `p2` built by
`Shape.window_projection`). -/
structure Vec2 where
  x : ℚ
  y : ℚ
  deriving DecidableEq, Repr

/-- Componentwise addition of coordinate triples (the effect of `+=` in
`Engine.move_obs`, applied at each of the three indices). -/
def Vec3.add (a b : Vec3) : Vec3 :=
  ⟨a.x + b.x, a.y + b.y, a.z + b.z⟩

/-- Componentwise subtraction of coordinate triples. -/
def Vec3.sub (a b : Vec3) : Vec3 :=
  ⟨a.x - b.x, a.y - b.y, a.z - b.z⟩

/-- One axis of `Shape.window_projection` (`engine3D.py` lines 139-143 for
axis x, 145-149 for axis y).  `pA` is the vertex coordinate on that axis,
`pz` its z coordinate, `oA`/`oz` the observer coordinates, `wz` the window
z.  The source computes `a = (p[2] - obs[2]) / (p[A] - obs[A])` and then
evaluates `1/a`; in Python that second division raises `ZeroDivisionError`
when `a == 0`, which we model as `none`. -/
def projAxis (pA pz oA oz wz : ℚ) : Option ℚ :=
  if pA ≠ oA then
    let a := (pz - oz) / (pA - oA)
    if a = 0 then none
    else some ((1 / a) * (wz - oz + a * oA))
  else some pA

/-- Projection of one vertex `p` (one iteration of the loop body of
`Shape.window_projection`): axis x is computed first, then axis y; an
exception in either aborts the computation. -/
def projVertex (obs w p : Vec3) : Option Vec2 := do
  let x ← projAxis p.x p.z obs.x obs.z w.z
  let y ← projAxis p.y p.z obs.y obs.z w.z
  pure ⟨x, y⟩

/-- Left-to-right effectful map over a list, stopping at the first `none`
(a Python `for` loop appending results, where an exception aborts the
whole call). -/
def mapOpt (f : A → Option B) : List A → Option (List B)
  | [] => some []
  | p :: ps =>
    match f p with
    | none => none
    | some q =>
      match mapOpt f ps with
      | none => none
      | some qs => some (q :: qs)

/-- `Shape.window_projection` (lines 134-150): project every vertex onto
the window plane, returning the new `verts_proj` list. -/
def window_projection (verts : List Vec3) (obs w : Vec3) : Option (List Vec2) :=
  mapOpt (projVertex obs w) verts

/-- The definedness condition of one projected vertex: each axis either
takes the guard branch (`p[A] = obs[A]`) or has a non-zero slope
(`p.z ≠ obs.z`), so that `1/a` does not divide by zero. -/
def projDefined (obs p : Vec3) : Prop :=
  (p.x = obs.x ∨ p.z ≠ obs.z) ∧ (p.y = obs.y ∨ p.z ≠ obs.z)

/-- A `Shape`: vertices, edges (pairs of Python `int` indices into the
vertex list), and the projected-vertex cache `verts_proj` (initially
`[]`). -/
structure ShapeState where
  verts : List Vec3
  edges : List (ℤ × ℤ)
  verts_proj : List Vec2
  deriving DecidableEq, Repr

/-- The effect of `s.window_projection(obs, window_pos)` on a shape:
replace `verts_proj` with the freshly projected list (or raise). -/
def shapeProject (obs w : Vec3) (sh : ShapeState) : Option ShapeState :=
  Option.map (fun vp => { sh with verts_proj := vp })
    (window_projection sh.verts obs w)

/-- The vertex template `v` of `Square.__init__` (line 156). -/
def squareTemplate : List Vec3 :=
  [⟨-1, -1, -1⟩, ⟨1, -1, -1⟩, ⟨1, 1, -1⟩, ⟨-1, 1, -1⟩,
   ⟨-1, -1, 1⟩, ⟨1, -1, 1⟩, ⟨1, 1, 1⟩, ⟨-1, 1, 1⟩]

/-- The edge template `e` of `Square.__init__` (line 157). -/
def squareEdges : List (ℤ × ℤ) :=
  [(0, 1), (1, 2), (2, 3), (3, 0), (4, 5), (5, 6), (6, 7), (7, 4),
   (0, 4), (1, 5), (2, 6), (3, 7)]

/-- The vertex list built by `Square.__init__` (lines 159-165):
`size = float(size) / 2`, then `v[i][k] = v[i][k] * size + pos[k]`. -/
def squareVerts (pos : Vec3) (size : ℚ) : List Vec3 :=
  squareTemplate.map fun v =>
    ⟨v.x * (size / 2) + pos.x, v.y * (size / 2) + pos.y, v.z * (size / 2) + pos.z⟩

/-- `Square(pos, size)` (lines 153-167): the cuboid-primitive shape. -/
def Square (pos : Vec3) (size : ℚ) : ShapeState :=
  ⟨squareVerts pos size, squareEdges, []⟩

/-- Number of edges incident to vertex index `i` (each template edge has
two distinct endpoints, so this is the graph degree). -/
def edgeDegree (edges : List (ℤ × ℤ)) (i : ℤ) : ℕ :=
  (edges.filter fun e => e.1 == i || e.2 == i).length

/-- Adjacency of vertex indices `i` and `j` in an edge list (unordered). -/
def adjacent (edges : List (ℤ × ℤ)) (i j : ℕ) : Bool :=
  edges.any fun e =>
    (e.1 == (i : ℤ) && e.2 == (j : ℤ)) || (e.1 == (j : ℤ) && e.2 == (i : ℤ))

/-- One breadth step of reachability from a set of vertex indices, among
vertices `0, …, n-1`. -/
def expandReach (edges : List (ℤ × ℤ)) (n : ℕ) (s : List ℕ) : List ℕ :=
  (List.range n).filter fun j => s.contains j || s.any fun i => adjacent edges i j

/-- Vertex indices reachable from vertex `0` in at most `n` steps. -/
def reachFromZero (edges : List (ℤ × ℤ)) (n : ℕ) : List ℕ :=
  Nat.iterate (expandReach edges n) n [0]

/-- The state owned by `Engine`: observer, window position, window size,
the stored canvas width/height (`canvas_shape`), and the shape list.
`canvas_size` models the external display surface (the Tk canvas whose
dimensions `winfo_width()`/`winfo_height()` report); it belongs to the
platform shell, and is carried here so that reading it at a given program
point is observable. -/
structure EngineState where
  obs : Vec3
  window_pos : Vec3
  window_size : ℚ × ℚ
  canvas_shape : ℚ × ℚ
  canvas_size : ℚ × ℚ
  shapes : List ShapeState
  deriving DecidableEq, Repr

/-- `Engine.move_obs` (lines 61-65) with a 3-component vector: add the
vector componentwise to both `obs` and `window_pos`. -/
def move_obs (v : Vec3) (s : EngineState) : EngineState :=
  { s with obs := Vec3.add s.obs v, window_pos := Vec3.add s.window_pos v }

/-- `Engine.add_shape` (lines 67-69): append a shape to the scene. -/
def add_shape (sh : ShapeState) (s : EngineState) : EngineState :=
  { s with shapes := s.shapes ++ [sh] }

/-- `Engine.render` (lines 71-74): recompute the projection of every
shape. -/
def render (s : EngineState) : Option EngineState :=
  Option.map (fun shapes => { s with shapes := shapes })
    (mapOpt (shapeProject s.obs s.window_pos) s.shapes)

/-- Python list subscription `xs[i]` with an `int` index: non-negative
indices are positions from the front, negative indices wrap around from
the back, and anything outside `[-len, len)` raises `IndexError`
(modelled as `none`). -/
def pyGet (xs : List α) (i : ℤ) : Option α :=
  if 0 ≤ i then xs.get? i.toNat
  else if 0 ≤ i + xs.length then xs.get? (i + xs.length).toNat
  else none

/-- A canvas line segment, as passed to `create_line` (line 96-97). -/
structure Seg where
  x1 : ℚ
  y1 : ℚ
  x2 : ℚ
  y2 : ℚ
  deriving DecidableEq, Repr

/-- One loop body of `Engine.draw` (lines 85-97): look up the two edge
endpoints in the projected cache (`IndexError` possible), then build the
segment `a*200 + canvas_shape/2`, `b*200 + canvas_shape/2`. -/
def segOfEdge (cs : ℚ × ℚ) (vp : List Vec2) (e : ℤ × ℤ) : Option Seg := do
  let a ← pyGet vp e.1
  let b ← pyGet vp e.2
  pure ⟨a.x * 200 + cs.1 / 2, a.y * 200 + cs.2 / 2,
        b.x * 200 + cs.1 / 2, b.y * 200 + cs.2 / 2⟩

/-- The segments drawn for one shape by `Engine.draw`. -/
def drawShape (cs : ℚ × ℚ) (sh : ShapeState) : Option (List Seg) :=
  mapOpt (segOfEdge cs sh.verts_proj) sh.edges

/-- `Engine.draw` (lines 76-97): the full list of emitted segments, in
shape order then edge order. -/
def draw (s : EngineState) : Option (List Seg) :=
  Option.map List.flatten (mapOpt (drawShape s.canvas_shape) s.shapes)

/-- Reading the canvas dimensions into `canvas_shape` (line 107:
`self.canvas_shape = [self.canvas.winfo_width(), self.canvas.winfo_height()]`). -/
def readCanvas (s : EngineState) : EngineState :=
  { s with canvas_shape := s.canvas_size }

/-- `Engine.update` (lines 99-115) minus the self-rescheduling: run the
optional callback, then refresh `canvas_shape` from the display surface,
then `render()`, then `draw()`.  Returns the post-render state and the
emitted segments. -/
def update (func : EngineState → EngineState) (s : EngineState) :
    Option (EngineState × List Seg) := do
  let s1 := func s
  let s2 := readCanvas s1
  let s3 ← render s2
  let segs ← draw s3
  pure (s3, segs)

/-- Modelled from the spec: the tick order claimed in the specification
(`tick` "refreshes the stored viewport size from the display surface,
invokes the optional mutation callback, then calls `project()` then
`emit()`"), i.e. the viewport size is read BEFORE the callback runs.
This is the comparison point for the order actually implemented by
`Engine.update`. -/
def update_specOrder (func : EngineState → EngineState) (s : EngineState) :
    Option (EngineState × List Seg) := do
  let s1 := readCanvas s
  let s2 := func s1
  let s3 ← render s2
  let segs ← draw s3
  pure (s3, segs)

/-- The window-to-observer relative offset `window_pos - obs`. -/
def windowOffset (s : EngineState) : Vec3 :=
  Vec3.sub s.window_pos s.obs

/-- One engine API operation, as a step relation on engine states:
`move_obs`, `add_shape`, a successful `render`, or the canvas-shape
refresh performed by `update`.  (`draw` reads the state but does not
change it.) -/
inductive EngineStep : EngineState → EngineState → Prop
  | move (v : Vec3) (s : EngineState) : EngineStep s (move_obs v s)
  | add (sh : ShapeState) (s : EngineState) : EngineStep s (add_shape sh s)
  | renderStep (s s' : EngineState) : render s = some s' → EngineStep s s'
  | refresh (s : EngineState) : EngineStep s (readCanvas s)

/-- Reachability of one engine state from another through API
operations. -/
def EngineReachable : EngineState → EngineState → Prop :=
  Relation.ReflTransGen EngineStep

/-- A two-vertex, one-edge shape used for concrete evaluations. -/
def demoShape : ShapeState :=
  ⟨[⟨1, 1, 4⟩, ⟨0, 0, 4⟩], [(0, 1)], []⟩

/-- A concrete engine state with the demo defaults (`obs = (0,0,-1)`,
`window_pos = (-1/2,-1/2,0)`, `window_size = (1,1)`) on a 600×500 canvas,
holding `demoShape`. -/
def demoState : EngineState :=
  ⟨⟨0, 0, -1⟩, ⟨-1/2, -1/2, 0⟩, (1, 1), (600, 500), (600, 500), [demoShape]⟩

/-- `demoState` after one `render`: the projected cache is filled. -/
def demoStateRendered : EngineState :=
  { demoState with shapes := [{ demoShape with verts_proj := [⟨1/5, 1/5⟩, ⟨0, 0⟩] }] }

/-- A concrete engine state with an empty scene. -/
def emptyState : EngineState :=
  ⟨⟨0, 0, -1⟩, ⟨-1/2, -1/2, 0⟩, (1, 1), (0, 0), (600, 500), []⟩

/-- A mutation callback that resizes the display surface to 2×2. -/
def shrinkCanvas : EngineState → EngineState :=
  fun s => { s with canvas_size := (2, 2) }

/-- A shape whose single vertex shares its z coordinate with the observer
of `zeroSlopeState` while differing in x: projecting it divides by a zero
slope. -/
def zeroSlopeShape : ShapeState :=
  ⟨[⟨1, 0, 0⟩], [], []⟩

/-- A state on which `render` raises `ZeroDivisionError`. -/
def zeroSlopeState : EngineState :=
  ⟨⟨0, 0, 0⟩, ⟨0, 0, 1⟩, (1, 1), (600, 500), (600, 500), [zeroSlopeShape]⟩

/-- A shape carrying a negative edge index `-1` into a projected cache of
length 2 (Python resolves it to the last element instead of faulting). -/
def negIndexShape : ShapeState :=
  ⟨[], [(-1, 0)], [⟨1, 2⟩, ⟨3, 4⟩]⟩

/-- A state holding `negIndexShape`, for the draw/fault claims. -/
def negIndexState : EngineState :=
  ⟨⟨0, 0, 0⟩, ⟨0, 0, 0⟩, (1, 1), (600, 500), (600, 500), [negIndexShape]⟩

/-! ## Sanity checks of the embedding on concrete inputs -/

example :
    window_projection [⟨0, 0, 4⟩] ⟨0, 0, -1⟩ ⟨-1/2, -1/2, 0⟩ = some [⟨0, 0⟩] := by
  norm_num [window_projection, mapOpt, projVertex, projAxis]

example :
    window_projection [⟨1, 1, 4⟩] ⟨0, 0, -1⟩ ⟨-1/2, -1/2, 0⟩ =
      some [⟨1/5, 1/5⟩] := by
  norm_num [window_projection, mapOpt, projVertex, projAxis]

-- The slope can be zero: vertex sharing z with the observer but not x.
example : window_projection [⟨1, 0, 0⟩] ⟨0, 0, 0⟩ ⟨0, 0, 1⟩ = none := by
  norm_num [window_projection, mapOpt, projVertex, projAxis]

/-! ## Basic lemmas about `projAxis`, `projVertex` and `mapOpt` -/

theorem projAxis_guard (pA pz oA oz wz : ℚ) (h : pA = oA) :
    projAxis pA pz oA oz wz = some pA := by
  simp [projAxis, h]

theorem projAxis_div (pA pz oA oz wz : ℚ) (h : pA ≠ oA) (hz : pz ≠ oz) :
    projAxis pA pz oA oz wz =
      some ((1 / ((pz - oz) / (pA - oA))) *
        (wz - oz + ((pz - oz) / (pA - oA)) * oA)) := by
  have ha : (pz - oz) / (pA - oA) ≠ 0 :=
    div_ne_zero (sub_ne_zero.mpr hz) (sub_ne_zero.mpr h)
  simp [projAxis, h, ha]

theorem projAxis_zero_slope (pA pz oA oz wz : ℚ) (h : pA ≠ oA) (hz : pz = oz) :
    projAxis pA pz oA oz wz = none := by
  subst hz
  simp [projAxis, h]

theorem projAxis_isSome_iff (pA pz oA oz wz : ℚ) :
    (projAxis pA pz oA oz wz).isSome = true ↔ pA = oA ∨ pz ≠ oz := by
  by_cases h : pA = oA
  · simp [projAxis, h]
  · by_cases hz : pz = oz
    · rw [projAxis_zero_slope pA pz oA oz wz h hz]
      simp [h, hz]
    · rw [projAxis_div pA pz oA oz wz h hz]
      simp [h, hz]

theorem projVertex_isSome_iff (obs w p : Vec3) :
    (projVertex obs w p).isSome = true ↔
      (p.x = obs.x ∨ p.z ≠ obs.z) ∧ (p.y = obs.y ∨ p.z ≠ obs.z) := by
  rw [← projAxis_isSome_iff p.x p.z obs.x obs.z w.z,
    ← projAxis_isSome_iff p.y p.z obs.y obs.z w.z]
  cases hx : projAxis p.x p.z obs.x obs.z w.z with
  | none => simp [projVertex, hx]
  | some vx =>
    cases hy : projAxis p.y p.z obs.y obs.z w.z with
    | none => simp [projVertex, hx, hy]
    | some vy => simp [projVertex, hx, hy]

theorem projDefined_iff (obs w p : Vec3) :
    projDefined obs p ↔ (projVertex obs w p).isSome = true :=
  (projVertex_isSome_iff obs w p).symm

theorem projVertex_eq_some (obs w p : Vec3) (r : Vec2)
    (h : projVertex obs w p = some r) :
    projAxis p.x p.z obs.x obs.z w.z = some r.x ∧
      projAxis p.y p.z obs.y obs.z w.z = some r.y := by
  cases hx : projAxis p.x p.z obs.x obs.z w.z with
  | none => simp [projVertex, hx] at h
  | some vx =>
    cases hy : projAxis p.y p.z obs.y obs.z w.z with
    | none => simp [projVertex, hx, hy] at h
    | some vy =>
      simp [projVertex, hx, hy] at h
      simp [← h]

theorem mapOpt_isSome_iff (f : A → Option B) (xs : List A) :
    (mapOpt f xs).isSome = true ↔ ∀ x ∈ xs, (f x).isSome = true := by
  induction xs with
  | nil => simp [mapOpt]
  | cons p ps ih =>
    cases hp : f p with
    | none => simp [mapOpt, hp]
    | some q =>
      cases hps : mapOpt f ps with
      | none => simpa [mapOpt, hp, hps] using ih
      | some qs => simpa [mapOpt, hp, hps] using ih

theorem mapOpt_length (f : A → Option B) (xs : List A) (ys : List B)
    (h : mapOpt f xs = some ys) : ys.length = xs.length := by
  induction xs generalizing ys with
  | nil => simp [mapOpt] at h; simp [← h]
  | cons p ps ih =>
    cases hp : f p with
    | none => simp [mapOpt, hp] at h
    | some q =>
      cases hps : mapOpt f ps with
      | none => simp [mapOpt, hp, hps] at h
      | some qs =>
        simp [mapOpt, hp, hps] at h
        simp [← h, ih qs hps]

theorem mapOpt_get (f : A → Option B) (xs : List A) (ys : List B)
    (h : mapOpt f xs = some ys) (i : ℕ) (hi : i < xs.length)
    (hi' : i < ys.length) :
    f (xs.get ⟨i, hi⟩) = some (ys.get ⟨i, hi'⟩) := by
  induction xs generalizing ys i with
  | nil => exact absurd hi (by simp)
  | cons p ps ih =>
    cases hp : f p with
    | none => simp [mapOpt, hp] at h
    | some q =>
      cases hps : mapOpt f ps with
      | none => simp [mapOpt, hp, hps] at h
      | some qs =>
        simp [mapOpt, hp, hps] at h
        subst h
        cases i with
        | zero => simpa using hp
        | succ n =>
          simpa using ih qs hps n (Nat.lt_of_succ_lt_succ hi)
            (Nat.lt_of_succ_lt_succ hi')

theorem mapOpt_mem (f : A → Option B) (xs : List A) (ys : List B)
    (h : mapOpt f xs = some ys) (y : B) (hy : y ∈ ys) :
    ∃ x ∈ xs, f x = some y := by
  induction xs generalizing ys with
  | nil => simp [mapOpt] at h; subst h; simp at hy
  | cons p ps ih =>
    cases hp : f p with
    | none => simp [mapOpt, hp] at h
    | some q =>
      cases hps : mapOpt f ps with
      | none => simp [mapOpt, hp, hps] at h
      | some qs =>
        simp [mapOpt, hp, hps] at h
        subst h
        rcases List.mem_cons.mp hy with rfl | hmem
        · exact ⟨p, List.mem_cons_self p ps, hp⟩
        · obtain ⟨x, hx, hfx⟩ := ih qs hps hmem
          exact ⟨x, List.mem_cons_of_mem p hx, hfx⟩

/-! ## C1: the per-axis projection formula -/

/-- C1 (amended): provided every vertex is projectable (for each axis
`A`, either `P[A] = O[A]` or `P.z ≠ O.z`, so that the slope `a` is not
zero), `Shape.window_projection` returns a list of the same length as the
vertex list, whose entry `i` is the projection of vertex `i`: on each
axis, `R[A] = (1/a) * (W.z - O.z + a * O[A])` with
`a = (P.z - O.z) / (P[A] - O[A])` when `P[A] ≠ O[A]`, and `R[A] = P[A]`
when `P[A] = O[A]`.  (The unamended claim, with no projectability
hypothesis, is refuted by `c1_counterexample`: when `P[A] ≠ O[A]` but
`P.z = O.z` the slope is zero and `1/a` raises `ZeroDivisionError`.) -/
theorem c1_window_projection_formula (verts : List Vec3) (obs w : Vec3)
    (hdef : ∀ p ∈ verts, projDefined obs p) :
    ∃ rs : List Vec2, window_projection verts obs w = some rs ∧
      rs.length = verts.length ∧
      ∀ (i : ℕ) (hi : i < verts.length) (hi' : i < rs.length), ∀ p r,
        p = verts.get ⟨i, hi⟩ → r = rs.get ⟨i, hi'⟩ →
        (p.x ≠ obs.x → r.x =
          1 / ((p.z - obs.z) / (p.x - obs.x)) *
            (w.z - obs.z + (p.z - obs.z) / (p.x - obs.x) * obs.x)) ∧
        (p.x = obs.x → r.x = p.x) ∧
        (p.y ≠ obs.y → r.y =
          1 / ((p.z - obs.z) / (p.y - obs.y)) *
            (w.z - obs.z + (p.z - obs.z) / (p.y - obs.y) * obs.y)) ∧
        (p.y = obs.y → r.y = p.y) := by
  have hsome : (window_projection verts obs w).isSome = true := by
    rw [window_projection, mapOpt_isSome_iff]
    intro p hp
    exact (projDefined_iff obs w p).mp (hdef p hp)
  obtain ⟨rs, hrs⟩ := Option.isSome_iff_exists.mp hsome
  refine ⟨rs, hrs, mapOpt_length _ _ _ hrs, ?_⟩
  intro i hi hi' p r hp hr
  have hv : projVertex obs w (verts.get ⟨i, hi⟩) = some (rs.get ⟨i, hi'⟩) :=
    mapOpt_get _ _ _ hrs i hi hi'
  rw [← hp, ← hr] at hv
  obtain ⟨hax, hay⟩ := projVertex_eq_some _ _ _ _ hv
  have hpm : p ∈ verts := by
    rw [hp]
    exact verts.get_mem _ _
  obtain ⟨hdx, hdy⟩ := hdef p hpm
  refine ⟨?_, ?_, ?_, ?_⟩
  · intro hne
    rw [projAxis_div p.x p.z obs.x obs.z w.z hne (hdx.resolve_left hne)] at hax
    exact (Option.some_inj.mp hax).symm
  · intro heq
    rw [projAxis_guard p.x p.z obs.x obs.z w.z heq] at hax
    exact (Option.some_inj.mp hax).symm
  · intro hne
    rw [projAxis_div p.y p.z obs.y obs.z w.z hne (hdy.resolve_left hne)] at hay
    exact (Option.some_inj.mp hay).symm
  · intro heq
    rw [projAxis_guard p.y p.z obs.y obs.z w.z heq] at hay
    exact (Option.some_inj.mp hay).symm

/-- C1 witness: the amended theorem applied to the concrete vertex
`(1, 1, 4)`, observer `(0, 0, -1)` and window `(-1/2, -1/2, 0)`. -/
theorem c1_window_projection_formula_witness :
    (∀ p ∈ [(⟨1, 1, 4⟩ : Vec3)], projDefined ⟨0, 0, -1⟩ p) ∧
      ∃ rs : List Vec2,
        window_projection [⟨1, 1, 4⟩] ⟨0, 0, -1⟩ ⟨-1/2, -1/2, 0⟩ = some rs := by
  have hd : ∀ p ∈ [(⟨1, 1, 4⟩ : Vec3)], projDefined (⟨0, 0, -1⟩ : Vec3) p := by
    intro p hp
    rw [List.mem_singleton.mp hp]
    exact ⟨Or.inr (by norm_num), Or.inr (by norm_num)⟩
  refine ⟨hd, ?_⟩
  obtain ⟨rs, h1, -, -⟩ :=
    c1_window_projection_formula [⟨1, 1, 4⟩] ⟨0, 0, -1⟩ ⟨-1/2, -1/2, 0⟩ hd
  exact ⟨rs, h1⟩

/-- C1 counterexample: the claim as stated (without any projectability
hypothesis) is false.  For the vertex `P = (1, 0, 0)`, observer
`O = (0, 0, 0)` and window `W = (0, 0, 1)` we have `P.x ≠ O.x`, yet no
projected list is returned at all: the slope `a0 = (0 - 0) / (1 - 0)` is
zero and `1/a0` raises `ZeroDivisionError`. -/
theorem c1_counterexample :
    ¬ ∀ (verts : List Vec3) (obs w : Vec3),
        ∃ rs : List Vec2, window_projection verts obs w = some rs ∧
          rs.length = verts.length ∧
          ∀ (i : ℕ) (hi : i < verts.length) (hi' : i < rs.length), ∀ p r,
            p = verts.get ⟨i, hi⟩ → r = rs.get ⟨i, hi'⟩ →
            (p.x ≠ obs.x → r.x =
              1 / ((p.z - obs.z) / (p.x - obs.x)) *
                (w.z - obs.z + (p.z - obs.z) / (p.x - obs.x) * obs.x)) ∧
            (p.x = obs.x → r.x = p.x) ∧
            (p.y ≠ obs.y → r.y =
              1 / ((p.z - obs.z) / (p.y - obs.y)) *
                (w.z - obs.z + (p.z - obs.z) / (p.y - obs.y) * obs.y)) ∧
            (p.y = obs.y → r.y = p.y) := by
  intro hclaim
  obtain ⟨rs, hrs, -, -⟩ := hclaim [⟨1, 0, 0⟩] ⟨0, 0, 0⟩ ⟨0, 0, 1⟩
  rw [show window_projection [⟨1, 0, 0⟩] ⟨0, 0, 0⟩ ⟨0, 0, 1⟩ = none by
    norm_num [window_projection, mapOpt, projVertex, projAxis]] at hrs
  exact Option.noConfusion hrs

/-! ## C2: freedom from errors -/

/-- C2 (amended): `Shape.window_projection` completes without raising an
error exactly when every vertex is projectable: for each axis `A`, either
`P[A] = O[A]` (the guarded branch) or `P.z ≠ O.z`.  The equality guard
prevents one division by zero, but the computed slope
`a = (P.z - O.z) / (P[A] - O[A])` is itself zero whenever `P.z = O.z`
with `P[A] ≠ O[A]`, and `1/a` then raises `ZeroDivisionError`, so the
unamended claim ("no error for any finite input") is false
(`c2_counterexample`). -/
theorem c2_no_error_iff (verts : List Vec3) (obs w : Vec3) :
    (window_projection verts obs w).isSome = true ↔
      ∀ p ∈ verts, projDefined obs p := by
  rw [window_projection, mapOpt_isSome_iff]
  exact forall_congr' fun p => imp_congr_right fun _ => (projDefined_iff obs w p).symm

/-- C2 counterexample: projecting the single finite vertex `(0, 1, 2)`
with observer `(0, 0, 2)` and window `(0, 0, 3)` raises: on axis y the
guard does not fire (`1 ≠ 0`), the slope `a1 = (2 - 2) / (1 - 0) = 0`,
and `1/a1` divides by zero. -/
theorem c2_counterexample :
    ¬ ∀ (verts : List Vec3) (obs w : Vec3),
        (window_projection verts obs w).isSome = true := by
  intro hclaim
  have h := hclaim [⟨0, 1, 2⟩] ⟨0, 0, 2⟩ ⟨0, 0, 3⟩
  rw [show window_projection [⟨0, 1, 2⟩] ⟨0, 0, 2⟩ ⟨0, 0, 3⟩ = none by
    norm_num [window_projection, mapOpt, projVertex, projAxis]] at h
  simp at h

/-! ## C3: behaviour under joint translation -/

theorem projAxis_translate (pA pz oA oz wz dA dz : ℚ) :
    projAxis pA pz (oA + dA) (oz + dz) (wz + dz) =
      Option.map (fun r => r + dA) (projAxis (pA - dA) (pz - dz) oA oz wz) := by
  by_cases h : pA - dA = oA
  · have h' : pA = oA + dA := by linarith
    rw [projAxis_guard _ _ _ _ _ h', projAxis_guard _ _ _ _ _ h]
    simp only [Option.map_some']
    congr 1
    linarith
  · have h' : pA ≠ oA + dA := fun hc => h (by linarith)
    by_cases hz : pz - dz = oz
    · have hz' : pz = oz + dz := by linarith
      rw [projAxis_zero_slope _ _ _ _ _ h' hz', projAxis_zero_slope _ _ _ _ _ h hz]
      simp
    · have hz' : pz ≠ oz + dz := fun hc => hz (by linarith)
      rw [projAxis_div _ _ _ _ _ h' hz', projAxis_div _ _ _ _ _ h hz]
      simp only [Option.map_some']
      congr 1
      have e1 : pA - (oA + dA) = pA - dA - oA := by ring
      have e2 : pz - (oz + dz) = pz - dz - oz := by ring
      rw [e1, e2]
      have hq : (pz - dz - oz) / (pA - dA - oA) ≠ 0 :=
        div_ne_zero (sub_ne_zero.mpr hz) (sub_ne_zero.mpr h)
      set q := (pz - dz - oz) / (pA - dA - oA) with hqdef
      field_simp
      ring

/-- C3 (amended): the projection is NOT invariant under simultaneous
translation of observer, window and vertex by `d`; it is equivariant
instead.  Projecting `P` against `(O + d, W + d)` equals the projection
of `P - d` against `(O, W)` shifted by `(d.x, d.y)` — the projected point
is expressed in absolute world coordinates, so translating the whole
configuration translates the result.  Exact invariance, as the original
claim states it, holds only when `d.x = d.y = 0` and is refuted by
`c3_counterexample`. -/
theorem c3_translation_equivariance (p obs w d : Vec3) :
    projVertex (Vec3.add obs d) (Vec3.add w d) p =
      Option.map (fun r => (⟨r.x + d.x, r.y + d.y⟩ : Vec2))
        (projVertex obs w (Vec3.sub p d)) := by
  have hx := projAxis_translate p.x p.z obs.x obs.z w.z d.x d.z
  have hy := projAxis_translate p.y p.z obs.y obs.z w.z d.y d.z
  cases hrx : projAxis (p.x - d.x) (p.z - d.z) obs.x obs.z w.z with
  | none =>
    rw [hrx] at hx
    simp [projVertex, Vec3.add, Vec3.sub, hx, hrx]
  | some vx =>
    rw [hrx] at hx
    cases hry : projAxis (p.y - d.y) (p.z - d.z) obs.y obs.z w.z with
    | none =>
      rw [hry] at hy
      simp [projVertex, Vec3.add, Vec3.sub, hx, hy, hrx, hry]
    | some vy =>
      rw [hry] at hy
      simp [projVertex, Vec3.add, Vec3.sub, hx, hy, hrx, hry]

/-- C3 counterexample: for `P = (1, 0, 2)`, `O = (0, 0, 0)`,
`W = (0, 0, 1)` and `d = (5, 0, 0)`, projecting `P` against
`(O + d, W + d)` yields `(3, 0)` while projecting `P - d` against
`(O, W)` yields `(-2, 0)`: the two differ by exactly `d.x = 5`. -/
theorem c3_counterexample :
    ¬ ∀ (p obs w d : Vec3),
        projVertex (Vec3.add obs d) (Vec3.add w d) p =
          projVertex obs w (Vec3.sub p d) := by
  intro hclaim
  have h := hclaim ⟨1, 0, 2⟩ ⟨0, 0, 0⟩ ⟨0, 0, 1⟩ ⟨5, 0, 0⟩
  rw [show projVertex (Vec3.add ⟨0, 0, 0⟩ ⟨5, 0, 0⟩) (Vec3.add ⟨0, 0, 1⟩ ⟨5, 0, 0⟩)
        ⟨1, 0, 2⟩ = some ⟨3, 0⟩ by
      norm_num [projVertex, projAxis, Vec3.add],
    show projVertex ⟨0, 0, 0⟩ ⟨0, 0, 1⟩ (Vec3.sub ⟨1, 0, 2⟩ ⟨5, 0, 0⟩) =
        some ⟨-2, 0⟩ by
      norm_num [projVertex, projAxis, Vec3.sub]] at h
  simp only [Option.some_inj, Vec2.mk.injEq] at h
  exact absurd h.1 (by norm_num)

/-! ## C9: the projection reads only the z component of the window -/

/-- C9: the projection output depends on the window position only through
its z component: two window origins with equal z but arbitrary x and y
give identical projected lists (the code only ever reads
`window_pos[2]`). -/
theorem c9_window_only_z (verts : List Vec3) (obs w1 w2 : Vec3)
    (hz : w1.z = w2.z) :
    window_projection verts obs w1 = window_projection verts obs w2 := by
  suffices h : projVertex obs w1 = projVertex obs w2 by
    unfold window_projection
    rw [h]
  funext p
  unfold projVertex
  rw [hz]

/-- C9 witness: two windows sharing `z = 0` but with different x and y
project the vertex `(1, 1, 4)` identically. -/
theorem c9_window_only_z_witness :
    (⟨7, 8, 0⟩ : Vec3).z = (⟨9, 10, 0⟩ : Vec3).z ∧
      window_projection [⟨1, 1, 4⟩] ⟨0, 0, -1⟩ ⟨7, 8, 0⟩ =
        window_projection [⟨1, 1, 4⟩] ⟨0, 0, -1⟩ ⟨9, 10, 0⟩ :=
  ⟨rfl, c9_window_only_z [⟨1, 1, 4⟩] ⟨0, 0, -1⟩ ⟨7, 8, 0⟩ ⟨9, 10, 0⟩ rfl⟩

/-! ## C4: the cuboid primitive -/

/-- C4: for every center `pos` and edge length `size`, `Square` produces
exactly 8 vertices, each at `pos ± size/2` along each axis, and exactly
the 12 standard cube edges (4 "front", 4 "back", 4 connecting); in
particular for center `(0,0,0)` and size 2 the vertices are exactly the
set `{(±1,±1,±1)}`, the edge graph is connected, and every vertex has
degree 3. -/
theorem c4_square_cube (pos : Vec3) (size : ℚ) :
    (Square pos size).verts.length = 8 ∧
    (∀ v ∈ (Square pos size).verts,
      (v.x = pos.x - size / 2 ∨ v.x = pos.x + size / 2) ∧
      (v.y = pos.y - size / 2 ∨ v.y = pos.y + size / 2) ∧
      (v.z = pos.z - size / 2 ∨ v.z = pos.z + size / 2)) ∧
    (Square pos size).edges =
      [(0, 1), (1, 2), (2, 3), (3, 0), (4, 5), (5, 6), (6, 7), (7, 4),
       (0, 4), (1, 5), (2, 6), (3, 7)] ∧
    (Square pos size).edges.length = 12 ∧
    (Square (⟨0, 0, 0⟩ : Vec3) 2).verts =
      [⟨-1, -1, -1⟩, ⟨1, -1, -1⟩, ⟨1, 1, -1⟩, ⟨-1, 1, -1⟩,
       ⟨-1, -1, 1⟩, ⟨1, -1, 1⟩, ⟨1, 1, 1⟩, ⟨-1, 1, 1⟩] ∧
    (∀ v : Vec3, v ∈ (Square (⟨0, 0, 0⟩ : Vec3) 2).verts ↔
      (v.x = 1 ∨ v.x = -1) ∧ (v.y = 1 ∨ v.y = -1) ∧ (v.z = 1 ∨ v.z = -1)) ∧
    (∀ j < 8, j ∈ reachFromZero (Square pos size).edges 8) ∧
    (∀ i : ℤ, 0 ≤ i → i < 8 → edgeDegree (Square pos size).edges i = 3) := by
  have hverts : (Square pos size).verts =
      [⟨-1 * (size / 2) + pos.x, -1 * (size / 2) + pos.y, -1 * (size / 2) + pos.z⟩,
       ⟨1 * (size / 2) + pos.x, -1 * (size / 2) + pos.y, -1 * (size / 2) + pos.z⟩,
       ⟨1 * (size / 2) + pos.x, 1 * (size / 2) + pos.y, -1 * (size / 2) + pos.z⟩,
       ⟨-1 * (size / 2) + pos.x, 1 * (size / 2) + pos.y, -1 * (size / 2) + pos.z⟩,
       ⟨-1 * (size / 2) + pos.x, -1 * (size / 2) + pos.y, 1 * (size / 2) + pos.z⟩,
       ⟨1 * (size / 2) + pos.x, -1 * (size / 2) + pos.y, 1 * (size / 2) + pos.z⟩,
       ⟨1 * (size / 2) + pos.x, 1 * (size / 2) + pos.y, 1 * (size / 2) + pos.z⟩,
       ⟨-1 * (size / 2) + pos.x, 1 * (size / 2) + pos.y, 1 * (size / 2) + pos.z⟩] := rfl
  have hconcrete : (Square (⟨0, 0, 0⟩ : Vec3) 2).verts =
      [⟨-1, -1, -1⟩, ⟨1, -1, -1⟩, ⟨1, 1, -1⟩, ⟨-1, 1, -1⟩,
       ⟨-1, -1, 1⟩, ⟨1, -1, 1⟩, ⟨1, 1, 1⟩, ⟨-1, 1, 1⟩] := by
    norm_num [Square, squareVerts, squareTemplate]
  have hedge : (Square pos size).edges = squareEdges := rfl
  refine ⟨rfl, ?_, rfl, rfl, hconcrete, ?_, ?_, ?_⟩
  · intro v hv
    rw [hverts] at hv
    simp only [List.mem_cons, List.not_mem_nil, or_false] at hv
    rcases hv with rfl | rfl | rfl | rfl | rfl | rfl | rfl | rfl <;>
      refine ⟨?_, ?_, ?_⟩ <;> first | (left; ring1) | (right; ring1)
  · intro v
    rw [hconcrete]
    obtain ⟨x, y, z⟩ := v
    simp only [List.mem_cons, List.not_mem_nil, or_false, Vec3.mk.injEq]
    constructor
    · intro hmem
      rcases hmem with h8 | h8 | h8 | h8 | h8 | h8 | h8 | h8 <;>
        obtain ⟨rfl, rfl, rfl⟩ := h8 <;> norm_num
    · rintro ⟨hx | hx, hy | hy, hz | hz⟩ <;> subst hx <;> subst hy <;> subst hz <;> norm_num
  · intro j hj
    rw [hedge]
    exact (by decide : ∀ j ∈ List.range 8, j ∈ reachFromZero squareEdges 8) j
      (List.mem_range.mpr hj)
  · intro i h0 h8
    rw [hedge]
    interval_cases i <;> decide

/-! ## Engine-level helper lemmas -/

theorem get?_isSome_iff_lt (l : List α) (n : ℕ) :
    (l.get? n).isSome = true ↔ n < l.length := by
  rw [Option.isSome_iff_ne_none, ne_eq, List.get?_eq_none]
  omega

theorem pyGet_isSome_iff (xs : List α) (i : ℤ) :
    (pyGet xs i).isSome = true ↔
      -(xs.length : ℤ) ≤ i ∧ i < (xs.length : ℤ) := by
  unfold pyGet
  by_cases h0 : 0 ≤ i
  · rw [if_pos h0, get?_isSome_iff_lt]
    omega
  · rw [if_neg h0]
    by_cases h1 : 0 ≤ i + (xs.length : ℤ)
    · rw [if_pos h1, get?_isSome_iff_lt]
      omega
    · rw [if_neg h1]
      simp only [Option.isSome_none, Bool.false_eq_true, false_iff, not_and, not_lt]
      omega

theorem render_eq_some (s s' : EngineState) (h : render s = some s') :
    ∃ shs, mapOpt (shapeProject s.obs s.window_pos) s.shapes = some shs ∧
      s' = { s with shapes := shs } := by
  unfold render at h
  cases ho : mapOpt (shapeProject s.obs s.window_pos) s.shapes with
  | none => rw [ho] at h; simp at h
  | some shs =>
    rw [ho] at h
    simp only [Option.map_some'] at h
    exact ⟨shs, rfl, (Option.some_inj.mp h).symm⟩

theorem shapeProject_eq_some (obs w : Vec3) (sh sh' : ShapeState)
    (h : shapeProject obs w sh = some sh') :
    ∃ vp, window_projection sh.verts obs w = some vp ∧
      sh' = { sh with verts_proj := vp } := by
  unfold shapeProject at h
  cases ho : window_projection sh.verts obs w with
  | none => rw [ho] at h; simp at h
  | some vp =>
    rw [ho] at h
    simp only [Option.map_some'] at h
    exact ⟨vp, rfl, (Option.some_inj.mp h).symm⟩

theorem engineStep_offset (s s' : EngineState) (h : EngineStep s s') :
    windowOffset s' = windowOffset s := by
  cases h with
  | move v t =>
    simp only [windowOffset, move_obs, Vec3.add, Vec3.sub, Vec3.mk.injEq]
    refine ⟨by ring, by ring, by ring⟩
  | add sh t => rfl
  | renderStep t t' hr =>
    obtain ⟨shs, -, rfl⟩ := render_eq_some _ _ hr
    rfl
  | refresh t => rfl

/-! ## C5: the window-to-observer offset is invariant -/

/-- C5: `move_obs` with a 3-component delta adds the delta componentwise
to both the observer position and the window position, so the offset
`window_pos - obs` is unchanged by the call; moreover the offset is
preserved along every chain of engine operations (`move_obs`,
`add_shape`, successful `render`, canvas refresh), i.e. across every
reachable scene state. -/
theorem c5_offset_invariant (v : Vec3) (s s0 s1 : EngineState)
    (hreach : EngineReachable s0 s1) :
    (move_obs v s).obs = Vec3.add s.obs v ∧
    (move_obs v s).window_pos = Vec3.add s.window_pos v ∧
    windowOffset (move_obs v s) = windowOffset s ∧
    windowOffset s1 = windowOffset s0 := by
  refine ⟨rfl, rfl, engineStep_offset s _ (EngineStep.move v s), ?_⟩
  induction hreach with
  | refl => rfl
  | tail _ hstep ih => exact (engineStep_offset _ _ hstep).trans ih

/-- C5 witness: one `move_obs` step from the demo state, with delta
`(1, 2, 3)`. -/
theorem c5_offset_invariant_witness :
    EngineReachable demoState (move_obs ⟨1, 2, 3⟩ demoState) ∧
      ((move_obs ⟨1, 2, 3⟩ demoState).obs = Vec3.add demoState.obs ⟨1, 2, 3⟩ ∧
       (move_obs ⟨1, 2, 3⟩ demoState).window_pos =
         Vec3.add demoState.window_pos ⟨1, 2, 3⟩ ∧
       windowOffset (move_obs ⟨1, 2, 3⟩ demoState) = windowOffset demoState ∧
       windowOffset (move_obs ⟨1, 2, 3⟩ demoState) = windowOffset demoState) :=
  have hr : EngineReachable demoState (move_obs ⟨1, 2, 3⟩ demoState) :=
    Relation.ReflTransGen.single (EngineStep.move ⟨1, 2, 3⟩ demoState)
  ⟨hr, c5_offset_invariant ⟨1, 2, 3⟩ demoState demoState
    (move_obs ⟨1, 2, 3⟩ demoState) hr⟩

/-! ## C10: render mutates only the projected cache -/

/-- C10 (amended): whenever `render` completes without raising, it leaves
the observer, window position and size, canvas data and shape count
unchanged, preserves every shape's vertex and edge lists, and replaces
each shape's `verts_proj` with the freshly computed projection of its
vertices.  (The unamended claim quantifies over every scene; it fails on
scenes where projection raises `ZeroDivisionError`, see
`c10_counterexample`.) -/
theorem c10_render_frame (s s' : EngineState) (h : render s = some s') :
    s'.obs = s.obs ∧ s'.window_pos = s.window_pos ∧
    s'.window_size = s.window_size ∧ s'.canvas_shape = s.canvas_shape ∧
    s'.canvas_size = s.canvas_size ∧ s'.shapes.length = s.shapes.length ∧
    ∀ (i : ℕ) (hi : i < s.shapes.length) (hi' : i < s'.shapes.length),
      (s'.shapes.get ⟨i, hi'⟩).verts = (s.shapes.get ⟨i, hi⟩).verts ∧
      (s'.shapes.get ⟨i, hi'⟩).edges = (s.shapes.get ⟨i, hi⟩).edges ∧
      window_projection (s.shapes.get ⟨i, hi⟩).verts s.obs s.window_pos =
        some (s'.shapes.get ⟨i, hi'⟩).verts_proj := by
  obtain ⟨shs, hm, rfl⟩ := render_eq_some s s' h
  refine ⟨rfl, rfl, rfl, rfl, rfl, mapOpt_length _ _ _ hm, ?_⟩
  intro i hi hi'
  have hsp := mapOpt_get _ _ _ hm i hi hi'
  obtain ⟨vp, hwp, hsh⟩ := shapeProject_eq_some _ _ _ _ hsp
  have hsh' : ({ s with shapes := shs } : EngineState).shapes.get ⟨i, hi'⟩ =
      { s.shapes.get ⟨i, hi⟩ with verts_proj := vp } := hsh
  refine ⟨by rw [hsh'], by rw [hsh'], ?_⟩
  rw [hsh']
  exact hwp

/-- C10 witness: rendering the demo scene succeeds and fills the
projected cache with `[(1/5, 1/5), (0, 0)]` while changing nothing
else. -/
theorem c10_render_frame_witness :
    render demoState = some demoStateRendered ∧
      (demoStateRendered.obs = demoState.obs ∧
       demoStateRendered.window_pos = demoState.window_pos ∧
       demoStateRendered.window_size = demoState.window_size ∧
       demoStateRendered.canvas_shape = demoState.canvas_shape ∧
       demoStateRendered.canvas_size = demoState.canvas_size ∧
       demoStateRendered.shapes.length = demoState.shapes.length ∧
       ∀ (i : ℕ) (hi : i < demoState.shapes.length)
         (hi' : i < demoStateRendered.shapes.length),
         (demoStateRendered.shapes.get ⟨i, hi'⟩).verts =
           (demoState.shapes.get ⟨i, hi⟩).verts ∧
         (demoStateRendered.shapes.get ⟨i, hi'⟩).edges =
           (demoState.shapes.get ⟨i, hi⟩).edges ∧
         window_projection (demoState.shapes.get ⟨i, hi⟩).verts
             demoState.obs demoState.window_pos =
           some (demoStateRendered.shapes.get ⟨i, hi'⟩).verts_proj) :=
  have h : render demoState = some demoStateRendered := by
    norm_num [render, mapOpt, shapeProject, window_projection, projVertex,
      projAxis, demoState, demoStateRendered, demoShape]
  ⟨h, c10_render_frame demoState demoStateRendered h⟩

/-- C10 counterexample: the unamended claim fails on `zeroSlopeState`,
whose single shape holds the vertex `(1, 0, 0)` with observer
`(0, 0, 0)`: `render` raises `ZeroDivisionError` instead of returning an
updated scene. -/
theorem c10_counterexample :
    ¬ ∀ s : EngineState, ∃ s',
        render s = some s' ∧
        s'.obs = s.obs ∧ s'.window_pos = s.window_pos ∧
        s'.window_size = s.window_size ∧ s'.canvas_shape = s.canvas_shape ∧
        s'.canvas_size = s.canvas_size ∧ s'.shapes.length = s.shapes.length ∧
        ∀ (i : ℕ) (hi : i < s.shapes.length) (hi' : i < s'.shapes.length),
          (s'.shapes.get ⟨i, hi'⟩).verts = (s.shapes.get ⟨i, hi⟩).verts ∧
          (s'.shapes.get ⟨i, hi'⟩).edges = (s.shapes.get ⟨i, hi⟩).edges ∧
          window_projection (s.shapes.get ⟨i, hi⟩).verts s.obs s.window_pos =
            some (s'.shapes.get ⟨i, hi'⟩).verts_proj := by
  intro hclaim
  obtain ⟨s', hs', -⟩ := hclaim zeroSlopeState
  rw [show render zeroSlopeState = none by
    norm_num [render, mapOpt, shapeProject, window_projection, projVertex,
      projAxis, zeroSlopeState, zeroSlopeShape]] at hs'
  exact Option.noConfusion hs'

/-! ## C6: pixel conversion in the emit step -/

theorem draw_eq_some (s : EngineState) (segs : List Seg)
    (h : draw s = some segs) :
    ∃ ls, mapOpt (drawShape s.canvas_shape) s.shapes = some ls ∧
      segs = ls.flatten := by
  unfold draw at h
  cases ho : mapOpt (drawShape s.canvas_shape) s.shapes with
  | none => rw [ho] at h; simp at h
  | some ls =>
    rw [ho] at h
    simp only [Option.map_some'] at h
    exact ⟨ls, rfl, (Option.some_inj.mp h).symm⟩

theorem segOfEdge_eq_some (cs : ℚ × ℚ) (vp : List Vec2) (e : ℤ × ℤ) (seg : Seg)
    (h : segOfEdge cs vp e = some seg) :
    ∃ a b, pyGet vp e.1 = some a ∧ pyGet vp e.2 = some b ∧
      seg = ⟨a.x * 200 + cs.1 / 2, a.y * 200 + cs.2 / 2,
             b.x * 200 + cs.1 / 2, b.y * 200 + cs.2 / 2⟩ := by
  cases ha : pyGet vp e.1 with
  | none => simp [segOfEdge, ha] at h
  | some a =>
    cases hb : pyGet vp e.2 with
    | none => simp [segOfEdge, ha, hb] at h
    | some b =>
      simp only [segOfEdge, ha, hb, Option.bind_eq_bind, Option.some_bind,
        Option.pure_def, Option.some_inj] at h
      exact ⟨a, b, rfl, rfl, h.symm⟩

/-- C6: every segment emitted by `draw` is the pixel conversion of the
two projected endpoints of some edge of some shape of the scene:
`pixel = projected * 200 + canvas_shape / 2` componentwise (a fixed scale
of 200 device units per world unit followed by the translation that puts
the world origin at the canvas midpoint); for a 600×500 canvas that
translation is `(300, 250)`. -/
theorem c6_pixel_conversion (s : EngineState) (segs : List Seg)
    (h : draw s = some segs) :
    (∀ seg ∈ segs, ∃ sh ∈ s.shapes, ∃ e ∈ sh.edges, ∃ a b : Vec2,
      pyGet sh.verts_proj e.1 = some a ∧ pyGet sh.verts_proj e.2 = some b ∧
      seg = ⟨a.x * 200 + s.canvas_shape.1 / 2, a.y * 200 + s.canvas_shape.2 / 2,
             b.x * 200 + s.canvas_shape.1 / 2,
             b.y * 200 + s.canvas_shape.2 / 2⟩) ∧
    (s.canvas_shape = (600, 500) →
      s.canvas_shape.1 / 2 = 300 ∧ s.canvas_shape.2 / 2 = 250) := by
  obtain ⟨ls, hls, rfl⟩ := draw_eq_some s segs h
  refine ⟨?_, ?_⟩
  · intro seg hseg
    obtain ⟨l, hl, hsl⟩ := List.mem_flatten.mp hseg
    obtain ⟨sh, hsh, hds⟩ := mapOpt_mem _ _ _ hls l hl
    unfold drawShape at hds
    obtain ⟨e, he, hse⟩ := mapOpt_mem _ _ _ hds seg hsl
    obtain ⟨a, b, ha, hb, hseq⟩ := segOfEdge_eq_some _ _ _ _ hse
    exact ⟨sh, hsh, e, he, a, b, ha, hb, hseq⟩
  · intro hcs
    rw [hcs]
    norm_num

/-- C6 witness: drawing the rendered demo scene emits exactly the segment
`(340, 290, 300, 250)`, i.e. `(1/5, 1/5) * 200 + (300, 250)` joined to
`(0, 0) * 200 + (300, 250)`. -/
theorem c6_pixel_conversion_witness :
    draw demoStateRendered = some [⟨340, 290, 300, 250⟩] ∧
      ((∀ seg ∈ [(⟨340, 290, 300, 250⟩ : Seg)],
        ∃ sh ∈ demoStateRendered.shapes, ∃ e ∈ sh.edges, ∃ a b : Vec2,
        pyGet sh.verts_proj e.1 = some a ∧ pyGet sh.verts_proj e.2 = some b ∧
        seg = ⟨a.x * 200 + demoStateRendered.canvas_shape.1 / 2,
               a.y * 200 + demoStateRendered.canvas_shape.2 / 2,
               b.x * 200 + demoStateRendered.canvas_shape.1 / 2,
               b.y * 200 + demoStateRendered.canvas_shape.2 / 2⟩) ∧
       (demoStateRendered.canvas_shape = (600, 500) →
         demoStateRendered.canvas_shape.1 / 2 = 300 ∧
         demoStateRendered.canvas_shape.2 / 2 = 250)) :=
  have h : draw demoStateRendered = some [⟨340, 290, 300, 250⟩] := by
    norm_num [draw, mapOpt, drawShape, segOfEdge, pyGet, demoStateRendered,
      demoState, demoShape]
  ⟨h, c6_pixel_conversion demoStateRendered [⟨340, 290, 300, 250⟩] h⟩

/-! ## C7: order of the steps inside a tick -/

/-- C7 (amended): `update` invokes the mutation callback FIRST, then
refreshes the stored viewport size from the display surface, then
projects, then emits; consequently the viewport size used for emission is
the display-surface size as it stands AFTER the callback has run (the
original claim states the opposite order and is refuted by
`c7_counterexample`). -/
theorem c7_update_order (func : EngineState → EngineState) (s s' : EngineState)
    (segs : List Seg) (h : update func s = some (s', segs)) :
    render (readCanvas (func s)) = some s' ∧
    draw s' = some segs ∧
    s'.canvas_shape = (func s).canvas_size := by
  simp only [update] at h
  cases hr : render (readCanvas (func s)) with
  | none => rw [hr] at h; simp at h
  | some s3 =>
    rw [hr] at h
    simp only [Option.bind_eq_bind, Option.some_bind] at h
    cases hd : draw s3 with
    | none => rw [hd] at h; simp at h
    | some gs =>
      rw [hd] at h
      simp only [Option.bind_eq_bind, Option.some_bind, Option.pure_def,
        Option.some_inj, Prod.mk.injEq] at h
      obtain ⟨rfl, rfl⟩ := h
      obtain ⟨shs, -, hs3⟩ := render_eq_some _ _ hr
      exact ⟨rfl, hd, by rw [hs3]; rfl⟩

/-- C7 witness: `update` with the canvas-shrinking callback on the empty
scene; the resulting stored viewport size is the post-callback display
size `(2, 2)`. -/
theorem c7_update_order_witness :
    update shrinkCanvas emptyState =
      some (⟨⟨0, 0, -1⟩, ⟨-1/2, -1/2, 0⟩, (1, 1), (2, 2), (2, 2), []⟩, []) ∧
      (render (readCanvas (shrinkCanvas emptyState)) =
        some ⟨⟨0, 0, -1⟩, ⟨-1/2, -1/2, 0⟩, (1, 1), (2, 2), (2, 2), []⟩ ∧
       draw (⟨⟨0, 0, -1⟩, ⟨-1/2, -1/2, 0⟩, (1, 1), (2, 2), (2, 2), []⟩ :
         EngineState) = some [] ∧
       (⟨⟨0, 0, -1⟩, ⟨-1/2, -1/2, 0⟩, (1, 1), (2, 2), (2, 2), []⟩ :
         EngineState).canvas_shape = (shrinkCanvas emptyState).canvas_size) :=
  have h : update shrinkCanvas emptyState =
      some (⟨⟨0, 0, -1⟩, ⟨-1/2, -1/2, 0⟩, (1, 1), (2, 2), (2, 2), []⟩, []) := by
    norm_num [update, readCanvas, render, draw, mapOpt, shrinkCanvas, emptyState]
  ⟨h, c7_update_order shrinkCanvas emptyState _ _ h⟩

/-- C7 counterexample: the claimed order (viewport refresh before the
callback) disagrees with the code.  With a callback that shrinks the
display surface from 600×500 to 2×2, the implemented `update` stores
`(2, 2)` as the viewport size, while the claimed order would store
`(600, 500)`. -/
theorem c7_counterexample :
    ¬ ∀ (func : EngineState → EngineState) (s : EngineState),
        update func s = update_specOrder func s := by
  intro hclaim
  have h := hclaim shrinkCanvas emptyState
  rw [show update shrinkCanvas emptyState =
      some (⟨⟨0, 0, -1⟩, ⟨-1/2, -1/2, 0⟩, (1, 1), (2, 2), (2, 2), []⟩, []) by
    norm_num [update, readCanvas, render, draw, mapOpt, shrinkCanvas,
      emptyState],
    show update_specOrder shrinkCanvas emptyState =
      some (⟨⟨0, 0, -1⟩, ⟨-1/2, -1/2, 0⟩, (1, 1), (600, 500), (2, 2), []⟩, []) by
    norm_num [update_specOrder, readCanvas, render, draw, mapOpt, shrinkCanvas,
      emptyState]] at h
  norm_num [Prod.mk.injEq, EngineState.mk.injEq] at h

/-! ## C8: edge-index faults in the emit step -/

theorem segOfEdge_isSome_iff (cs : ℚ × ℚ) (vp : List Vec2) (e : ℤ × ℤ) :
    (segOfEdge cs vp e).isSome = true ↔
      (pyGet vp e.1).isSome = true ∧ (pyGet vp e.2).isSome = true := by
  cases ha : pyGet vp e.1 with
  | none => simp [segOfEdge, ha]
  | some a =>
    cases hb : pyGet vp e.2 with
    | none => simp [segOfEdge, ha, hb]
    | some b => simp [segOfEdge, ha, hb]

/-- C8 (amended): `draw` faults (raises `IndexError`) exactly when some
edge of some shape carries an endpoint index outside `[-count, count)`,
where `count` is the length of that shape's projected cache.  Indices in
`[0, count)` resolve normally, and — contrary to the original claim —
negative indices in `[-count, 0)` do NOT fault: Python list subscription
wraps them around to the end of the list and `draw` silently draws the
corresponding segment (see `c8_counterexample`). -/
theorem c8_draw_fault_iff (s : EngineState) :
    (draw s).isSome = true ↔
      ∀ sh ∈ s.shapes, ∀ e ∈ sh.edges,
        (-(sh.verts_proj.length : ℤ) ≤ e.1 ∧
          e.1 < (sh.verts_proj.length : ℤ)) ∧
        (-(sh.verts_proj.length : ℤ) ≤ e.2 ∧
          e.2 < (sh.verts_proj.length : ℤ)) := by
  unfold draw
  have hmap : ∀ o : Option (List (List Seg)),
      (Option.map List.flatten o).isSome = o.isSome := by
    intro o
    cases o <;> rfl
  rw [hmap, mapOpt_isSome_iff]
  refine forall_congr' fun sh => imp_congr_right fun _ => ?_
  unfold drawShape
  rw [mapOpt_isSome_iff]
  refine forall_congr' fun e => imp_congr_right fun _ => ?_
  rw [segOfEdge_isSome_iff, pyGet_isSome_iff, pyGet_isSome_iff]

/-- C8 counterexample: `negIndexState` holds a shape whose edge is
`(-1, 0)` with a projected cache of length 2.  The index `-1` is negative
— by the original claim `draw` should fault — yet `draw` succeeds,
silently resolving `-1` to the LAST cache entry and emitting the segment
`(900, 1050, 500, 650)`. -/
theorem c8_counterexample :
    ¬ ∀ s : EngineState,
        ((∃ sh ∈ s.shapes, ∃ e ∈ sh.edges,
          e.1 < 0 ∨ (sh.verts_proj.length : ℤ) ≤ e.1 ∨
          e.2 < 0 ∨ (sh.verts_proj.length : ℤ) ≤ e.2) → draw s = none) ∧
        ((∀ sh ∈ s.shapes, ∀ e ∈ sh.edges,
          (0 ≤ e.1 ∧ e.1 < (sh.verts_proj.length : ℤ)) ∧
          (0 ≤ e.2 ∧ e.2 < (sh.verts_proj.length : ℤ))) →
          (draw s).isSome = true) := by
  intro hclaim
  have hbad : ∃ sh ∈ negIndexState.shapes, ∃ e ∈ sh.edges,
      e.1 < 0 ∨ ((sh.verts_proj.length : ℤ) ≤ e.1 ∨
      e.2 < 0 ∨ (sh.verts_proj.length : ℤ) ≤ e.2) := by
    refine ⟨negIndexShape, by norm_num [negIndexState], (-1, 0),
      by norm_num [negIndexShape], Or.inl (by norm_num)⟩
  have h := (hclaim negIndexState).1 hbad
  rw [show draw negIndexState = some [⟨900, 1050, 500, 650⟩] by
    norm_num [draw, mapOpt, drawShape, segOfEdge, pyGet, negIndexState,
      negIndexShape]] at h
  exact Option.noConfusion h
